import Mathlib

set_option maxHeartbeats 1000000
set_option maxRecDepth 8192

/-! Shallow embedding of the SlideGen generation pipeline: outline synthesis,
per-slide image rendering, deck assembly, file-upload normalisation and deck
export, translated from the TypeScript sources
(services/geminiService.ts, the slide viewer component, and the app shell).
External AI services are modelled as oracles: the text-model response, the
JSON parser of the host language, and one image-model response per slide. -/

/-! ## Data model (types.ts) -/

structure SlideOutline where
  title : String
  content : String
  visualDescription : String
deriving DecidableEq, Inhabited

structure SearchResultItem where
  title : String
  url : String
deriving DecidableEq

structure Slide where
  id : String
  data : String
  title : String
  speakerNotes : String
deriving DecidableEq

structure UploadedFile where
  name : String
  type : String
  data : String
deriving DecidableEq

structure Presentation where
  id : String
  topic : String
  timestamp : Nat
  slides : List Slide
  level : String
  style : String
  sources : List SearchResultItem
deriving DecidableEq

/-! ## String helpers (substring containment, slicing, trimming), modelling
the JavaScript primitives used by the source. -/

/-- needle is an initial segment of hay. -/
def strLeads : List Char → List Char → Bool
  | [], _ => true
  | _ :: _, [] => false
  | a :: as, b :: bs => a == b && strLeads as bs

/-- needle occurs somewhere inside hay. -/
def strHas : List Char → List Char → Bool
  | [], needle => strLeads needle []
  | h :: t, needle => strLeads needle (h :: t) || strHas t needle

/-- Models the JavaScript String.includes used on error messages. -/
def strContains (s pat : String) : Bool := strHas s.data pat.data

/-- Models the JavaScript String.endsWith used on file names. -/
def strEndsWith (s suf : String) : Bool := strLeads suf.data.reverse s.data.reverse

/-- Models JavaScript input.substring(0, n). -/
def jsSubstring (s : String) (n : Nat) : String := ⟨s.data.take n⟩

/-- Models JavaScript inputText.trim(). -/
def jsTrim (s : String) : String :=
  ⟨((s.data.dropWhile Char.isWhitespace).reverse.dropWhile Char.isWhitespace).reverse⟩

/-! ## Outline synthesis (generatePresentationOutline) -/

def getStyleInstruction (style : String) : String :=
  if style = "现代简约" then "Style: Minimalist, plenty of white space, sans-serif typography, soft pastel accents. Professional and airy."
  else if style = "商务科技" then "Style: Fortune 500 business style. Navy blues, greys, structured layouts, official look, subtle grid lines."
  else if style = "创意艺术" then "Style: Bold colors, artistic shapes, dynamic composition. High energy."
  else if style = "深色模式" then "Style: Dark background (slate/black), bright neon or white text, sleek and modern."
  else if style = "自然清新" then "Style: Organic shapes, green and earth tones, soft lighting."
  else "Style: High-quality professional presentation."

def baseInstruction (slideCount : Nat) (level language styleInstr : String) : String :=
  "\n    You are an expert presentation designer.\n    Role: Create a structured outline for a " ++
  toString slideCount ++ "-slide presentation.\n    \n    Audience Level: " ++ level ++
  "\n    Language: " ++ language ++ " (CRITICAL: The JSON content, title, and body MUST be in " ++
  language ++ ")\n    \n    Output Rules:\n    1. Create exactly " ++ toString slideCount ++
  " slides.\n    2. Slide 1 must be a Title Slide.\n    3. The final slide must be a Conclusion/Summary.\n    4. Return the output strictly as a JSON array of objects.\n    \n    JSON Format:\n    [\n      \x7b\n        \"title\": \"Slide Title (In " ++
  language ++ ")\",\n        \"content\": \"Key bullet points for the slide text (max 30 words, In " ++
  language ++ ")\",\n        \"visualDescription\": \"Detailed prompt for an AI image generator to create this slide background and layout. Include placement of text placeholders. " ++
  styleInstr ++ "\"\n      \x7d\n    ]\n  "

/-- const isArticle = input.length > 250 || attachedFile !== null -/
def isArticleInput (input : String) (attachedFile : Option UploadedFile) : Bool :=
  decide (input.length > 250) || attachedFile.isSome

def articleContentSection (input : String) : String :=
  if input ≠ "" then "\n\nCONTENT TO ANALYZE:\n\"" ++ jsSubstring input 20000 ++ "\"" else ""

def buildPromptText (input : String) (attachedFile : Option UploadedFile)
    (slideCount : Nat) (level language styleInstr : String) : String :=
  if isArticleInput input attachedFile then
    ("\n      " ++ baseInstruction slideCount level language styleInstr ++
        "\n      \n      Analyze the provided content (text and/or attached document) to create the deck.\n    ")
      ++ articleContentSection input
  else
    "\n      " ++ baseInstruction slideCount level language styleInstr ++ "\n      \n      " ++
      ("Task: Research the topic: \"" ++ input ++ "\"") ++
      " and create the deck.\n      **Use Google Search to find accurate facts.**\n    "

/-- Index (in characters) of the first opening square bracket, if any. -/
def firstBracket : List Char → Option Nat
  | [] => none
  | c :: cs => if c = '[' then some 0 else (firstBracket cs).map (· + 1)

/-- Index of the last closing square bracket, if any. -/
def lastClose : List Char → Option Nat
  | [] => none
  | c :: cs =>
    match lastClose cs with
    | some j => some (j + 1)
    | none => if c = ']' then some 0 else none

/-- Models the greedy regex match on the response text: the span from the
first opening bracket to the last closing bracket, when the latter comes
strictly after the former. -/
def extractArray (text : String) : Option String :=
  match firstBracket text.data, lastClose text.data with
  | some i, some j => if i < j then some ⟨(text.data.drop i).take (j - i + 1)⟩ else none
  | _, _ => none

def fallbackOutlineEntry : SlideOutline :=
  ⟨"生成失败", "无法解析大纲结构，请重试。", "Generic professional background"⟩

/-- The parse step of generatePresentationOutline: scan the response text for
an array-shaped substring, hand it to the host JSON parser, and degrade to a
single synthetic entry when either step fails. -/
def parseOutlineText (text : String) (jsonParse : String → Option (List SlideOutline)) :
    List SlideOutline :=
  match extractArray text with
  | some s =>
    match jsonParse s with
    | some arr => arr
    | none => [fallbackOutlineEntry]
  | none => [fallbackOutlineEntry]

/-! Grounding metadata of the text-model response. -/

structure WebChunk where
  uri : Option String
  title : Option String
deriving DecidableEq

structure GroundingChunk where
  web : Option WebChunk
deriving DecidableEq

structure GroundingMetadata where
  groundingChunks : Option (List GroundingChunk)
deriving DecidableEq

structure TextCandidate where
  groundingMetadata : Option GroundingMetadata
deriving DecidableEq

structure TextGenResponse where
  text : Option String
  candidates : List TextCandidate
deriving DecidableEq

def chunksOf (resp : TextGenResponse) : Option (List GroundingChunk) :=
  (resp.candidates.head?.bind (fun c => c.groundingMetadata)).bind (fun m => m.groundingChunks)

/-- The item pushed for one grounding chunk when both uri and title are
truthy (present and nonempty), per the guard chunk.web uri and title. -/
def chunkItem (c : GroundingChunk) : Option SearchResultItem :=
  match c.web with
  | some w =>
    match w.uri, w.title with
    | some u, some t => if u ≠ "" ∧ t ≠ "" then some ⟨t, u⟩ else none
    | _, _ => none
  | none => none

/-- One forEach step: push the item of a qualifying chunk. -/
def collectStep (acc : List SearchResultItem) (c : GroundingChunk) : List SearchResultItem :=
  match chunkItem c with
  | some item => acc ++ [item]
  | none => acc

/-- chunks.forEach(... sources.push ...) -/
def collectSources (chunks : Option (List GroundingChunk)) : List SearchResultItem :=
  match chunks with
  | none => []
  | some cs => cs.foldl collectStep []

/-- JavaScript Map.set semantics: replace the value of an existing key in
place, otherwise append a new key at the end. -/
def mapInsert : List (String × SearchResultItem) → String → SearchResultItem →
    List (String × SearchResultItem)
  | [], k, v => [(k, v)]
  | p :: rest, k, v => if p.1 = k then (k, v) :: rest else p :: mapInsert rest k v

/-- new Map(sources.map(item => [item.url, item])) built by insertion order. -/
def jsMapOf (l : List SearchResultItem) : List (String × SearchResultItem) :=
  l.foldl (fun m item => mapInsert m item.url item) []

/-- Array.from(new Map(sources.map(item => [item.url, item])).values()) -/
def dedupSources (l : List SearchResultItem) : List SearchResultItem :=
  (jsMapOf l).map Prod.snd

structure OutlineRequest where
  promptText : String
  searchTool : Bool
  pdfAttachment : Option String
deriving DecidableEq

structure OutlineResult where
  request : OutlineRequest
  outline : List SlideOutline
  sources : List SearchResultItem
deriving DecidableEq

def generatePresentationOutline (input : String) (attachedFile : Option UploadedFile)
    (level style language : String) (slideCount : Nat)
    (resp : TextGenResponse) (jsonParse : String → Option (List SlideOutline)) : OutlineResult :=
  let styleInstr := getStyleInstruction style
  let promptText := buildPromptText input attachedFile slideCount level language styleInstr
  let searchTool := !(isArticleInput input attachedFile)
  let pdf := match attachedFile with
    | some f => if f.type = "application/pdf" then some f.data else none
    | none => none
  let text := resp.text.getD ""
  let uniqueSources := dedupSources (collectSources (chunksOf resp))
  let outline := parseOutlineText text jsonParse
  ⟨⟨promptText, searchTool, pdf⟩, outline, uniqueSources⟩

/-! ## Slide rendering (generateSlideImage) -/

structure InlineData where
  data : Option String
deriving DecidableEq

structure GenPart where
  inlineData : Option InlineData
deriving DecidableEq

structure GenContent where
  parts : List GenPart
deriving DecidableEq

structure ImageCandidate where
  content : Option GenContent
deriving DecidableEq

structure ImageGenResponse where
  candidates : List ImageCandidate
deriving DecidableEq

def slideImagePrompt (slide : SlideOutline) : String :=
  "\n    Create a high-quality 16:9 presentation slide image.\n    \n    TEXT ON SLIDE (Render this text clearly):\n    HEADLINE: " ++
  slide.title ++ "\n    BODY COPY: " ++ slide.content ++
  "\n    \n    DESIGN INSTRUCTIONS:\n    " ++ slide.visualDescription ++
  "\n    \n    CRITICAL:\n    - The image MUST contain the text provided above.\n    - The text must be legible, large, and professional.\n    - Use a 16:9 aspect ratio layout.\n    - Do not include messy or gibberish text.\n  "

/-- response.candidates first entry, its content, its first part. -/
def firstPart (resp : ImageGenResponse) : Option GenPart :=
  (resp.candidates.head?.bind (fun c => c.content)).bind (fun c => c.parts.head?)

def renderFailureMsg : String := "Failed to generate slide image"

/-- generateSlideImage: the issued prompt paired with the outcome of the
response handling (data URL on a truthy image payload, rejection otherwise). -/
def generateSlideImage (slide : SlideOutline) (resp : ImageGenResponse) :
    String × Except String String :=
  (slideImagePrompt slide,
    match firstPart resp with
    | some part =>
      match part.inlineData with
      | some idata =>
        match idata.data with
        | some d =>
          if d ≠ "" then .ok ("data:image/png;base64," ++ d) else .error renderFailureMsg
        | none => .error renderFailureMsg
      | none => .error renderFailureMsg
    | none => .error renderFailureMsg)

/-- The image payload reachable through the optional chain of the response. -/
def imagePayloadOf (resp : ImageGenResponse) : Option String :=
  ((firstPart resp).bind (fun part => part.inlineData)).bind (fun idata => idata.data)

/-- Whether the render of one slide succeeds on the given response. -/
def renderOkB (resp : ImageGenResponse) : Bool :=
  match imagePayloadOf resp with
  | some d => d ≠ ""
  | none => false

def dataUrlOf (resp : ImageGenResponse) : String :=
  "data:image/png;base64," ++ (imagePayloadOf resp).getD ""

/-- The RenderedSlide built for outline index i on a successful render. -/
def expectedSlide (i : Nat) (s : SlideOutline) (resp : ImageGenResponse) : Slide :=
  ⟨"slide-" ++ toString i, dataUrlOf resp, s.title, s.content⟩

/-- One entry of the concurrent fan-out: the render request for outline
index i together with the Slide it resolves to. -/
def renderSlide (i : Nat) (s : SlideOutline) (resp : ImageGenResponse) :
    String × Except String Slide :=
  let r := generateSlideImage s resp
  (r.1, r.2.map (fun base64 => ⟨"slide-" ++ toString i, base64, s.title, s.content⟩))

/-! ## Deck assembly (handleGenerate) -/

structure GenState where
  inputText : String
  uploadedFile : Option UploadedFile
  complexityLevel : String
  visualStyle : String
  language : String
  slideCount : Nat
  isLoading : Bool
  hasApiKey : Bool
  checkingKey : Bool
deriving DecidableEq

structure GenOracles where
  outlineResp : TextGenResponse
  jsonParse : String → Option (List SlideOutline)
  renders : Nat → ImageGenResponse
  now : Nat

inductive GenResult where
  | blocked
  | inputError (msg : String)
  | failure (msg : String) (apiKeyReset : Bool)
  | success (p : Presentation)
deriving DecidableEq

structure GenAttempt where
  outlineRequest : Option OutlineRequest
  renderRequests : List String
  result : GenResult
deriving DecidableEq

def emptyInputMsg : String := "请输入主题，粘贴文本，或上传文件。"
def genericFailureMsg : String := "生成失败。请尝试缩短文本或更换主题。"
def credFailureMsg : String := "访问被拒绝。请选择启用了计费的 Google Cloud 项目 API 密钥。"

/-- The catch branch of handleGenerate: substring-match the error message and
either report the credential/billing error (also resetting the key flag) or
the generic failure message. -/
def classifyGenError (msg : String) : GenResult :=
  if strContains msg "Requested entity was not found" || strContains msg "404" ||
      strContains msg "403" then
    .failure credFailureMsg true
  else
    .failure genericFailureMsg false

/-- Message of the TypeError thrown by outline[0].title on an empty outline. -/
def undefinedTitleMsg : String := "Cannot read properties of undefined (reading 'title')"

/-- Promise.all: the list of all values when every entry resolves, a
rejection as soon as any entry rejects. -/
def promiseAll : List (Except String α) → Except String (List α)
  | [] => .ok []
  | .error e :: _ => .error e
  | .ok a :: rest => (promiseAll rest).map (fun l => a :: l)

/-- The outline stage of one generation attempt. -/
def outlineResultOf (st : GenState) (o : GenOracles) : OutlineResult :=
  generatePresentationOutline st.inputText st.uploadedFile st.complexityLevel st.visualStyle
    st.language st.slideCount o.outlineResp o.jsonParse

/-- The outline the pipeline works from, for a given state and oracles. -/
def outlineOf (st : GenState) (o : GenOracles) : List SlideOutline :=
  (outlineResultOf st o).outline

/-- The concurrent fan-out: one (request, pending slide) per outline entry. -/
def renderedOf (st : GenState) (o : GenOracles) : List (String × Except String Slide) :=
  (outlineOf st o).enum.map (fun pr => renderSlide pr.1 pr.2 (o.renders pr.1))

/-- The render requests issued by the fan-out. -/
def requestsOf (st : GenState) (o : GenOracles) : List String :=
  (renderedOf st o).map (fun pr => pr.1)

def handleGenerate (st : GenState) (o : GenOracles) : GenAttempt :=
  if st.isLoading then ⟨none, [], .blocked⟩
  else if jsTrim st.inputText = "" ∧ st.uploadedFile = none then
    ⟨none, [], .inputError emptyInputMsg⟩
  else
    match promiseAll ((renderedOf st o).map (fun pr => pr.2)) with
    | .error e => ⟨some (outlineResultOf st o).request, requestsOf st o, classifyGenError e⟩
    | .ok slides =>
      match (outlineOf st o).head? with
      | none =>
        ⟨some (outlineResultOf st o).request, requestsOf st o,
          classifyGenError undefinedTitleMsg⟩
      | some e0 =>
        ⟨some (outlineResultOf st o).request, requestsOf st o,
          .success ⟨toString o.now,
            if e0.title = "" then "Generated Presentation" else e0.title,
            o.now, slides, st.complexityLevel, st.visualStyle,
            (outlineResultOf st o).sources⟩⟩

/-- The key-selection modal overlays the app exactly when the key check has
finished and no key is selected. -/
def keyModalShown (st : GenState) : Bool := !st.checkingKey && !st.hasApiKey

/-! ## File upload (handleFileUpload) -/

structure FileBlob where
  name : String
  type : String
  text : String
  dataUrl : String
deriving DecidableEq

structure UploadState where
  inputText : String
  uploadedFile : Option UploadedFile
  error : Option String
deriving DecidableEq

def unsupportedFileMsg : String := "不支持的文件类型。请上传 PDF, DOCX, 或 TXT。"
def extractFailureMsg : String := "无法提取 Word 文档内容"
def docxMime : String := "application/vnd.openxmlformats-officedocument.wordprocessingml.document"

/-- setInputText(prev => prev + (prev ? two newlines : empty) + header + text) -/
def appendFromFile (prev name text : String) : String :=
  prev ++ (if prev ≠ "" then "\n\n" else "") ++ "[内容来自 " ++ name ++ "]:\n" ++ text

/-- handleFileUpload as an eventual-state transformer; the word-document
extraction outcome is the mammoth oracle. Attachment and error state are
reset before the MIME dispatch, as in the source. -/
def handleFileUpload (st : UploadState) (file : Option FileBlob)
    (mammothExtract : Except Unit String) : UploadState :=
  match file with
  | none => st
  | some f =>
    let st1 : UploadState := { st with uploadedFile := none, error := none }
    if f.type = "application/pdf" then
      { st1 with uploadedFile := some ⟨f.name, f.type, (f.dataUrl.splitOn ",").getD 1 ""⟩ }
    else if strEndsWith f.name ".docx" || f.type = docxMime then
      match mammothExtract with
      | .ok value => { st1 with inputText := appendFromFile st1.inputText f.name value }
      | .error _ => { st1 with error := some extractFailureMsg }
    else if f.type = "text/plain" then
      { st1 with inputText := appendFromFile st1.inputText f.name f.text }
    else
      { st1 with error := some unsupportedFileMsg }

/-! ## Export (exportPDF / exportPPT in the slide viewer) -/

structure PdfImage where
  data : String
  fmt : String
  x : Nat
  y : Nat
  w : Nat
  h : Nat
deriving DecidableEq

structure PdfDoc where
  pages : List (List PdfImage)
deriving DecidableEq

def pdfAddPage (d : PdfDoc) : PdfDoc := ⟨d.pages ++ [[]]⟩

def pdfAddImage (d : PdfDoc) (img : PdfImage) : PdfDoc :=
  ⟨d.pages.dropLast ++ [(d.pages.getLast?.getD []) ++ [img]]⟩

def pdfStep (doc : PdfDoc) (pr : Nat × Slide) : PdfDoc :=
  pdfAddImage (if pr.1 > 0 then pdfAddPage doc else doc) ⟨pr.2.data, "PNG", 0, 0, 1280, 720⟩

/-- exportPDF: a fresh document starts with one empty 1280 x 720 page; each
slide after the first adds a page, then its image is drawn full-page. -/
def exportPDF (p : Presentation) : PdfDoc :=
  p.slides.enum.foldl pdfStep ⟨[[]]⟩

structure PptImage where
  data : String
  x : Nat
  y : Nat
  w : String
  h : String
deriving DecidableEq

structure PptSlide where
  images : List PptImage
  notes : Option String
deriving DecidableEq

/-- One package slide: the image covers the canvas; notes are attached only
when speakerNotes is truthy (nonempty). -/
def buildPptSlide (s : Slide) : PptSlide :=
  ⟨[⟨s.data, 0, 0, "100%", "100%"⟩], if s.speakerNotes ≠ "" then some s.speakerNotes else none⟩

/-- exportPPT: pres.addSlide per slide, in deck order. -/
def exportPPT (p : Presentation) : List PptSlide :=
  p.slides.foldl (fun acc s => acc ++ [buildPptSlide s]) []

/-! ## Auxiliary specification-side definitions -/

/-- First-occurrence deduplication of a list of keys, with an accumulator of
keys already seen. -/
def keepFirstAux (seen : List String) : List String → List String
  | [] => []
  | a :: l => if a ∈ seen then keepFirstAux seen l else a :: keepFirstAux (seen ++ [a]) l

def keepFirst (l : List String) : List String := keepFirstAux [] l

/-- Join model for the concurrent fan-out: results land in a fixed slot
array in arbitrary completion order. -/
def fillByArrival (f : Nat → Slide) (order : List Nat) (init : List (Option Slide)) :
    List (Option Slide) :=
  order.foldl (fun acc i => acc.set i (some (f i))) init

/-! ## Concrete instances used by witnesses and counterexamples -/

def noParse : String → Option (List SlideOutline) := fun _ => none

def priorUploadState : UploadState :=
  ⟨"现有文本", some ⟨"old.pdf", "application/pdf", "QUJD"⟩, none⟩

def pngBlob : FileBlob := ⟨"img.png", "image/png", "", ""⟩

def emptyPresentation : Presentation := ⟨"0", "Empty", 0, [], "专业", "现代简约", []⟩

def samplePresentation : Presentation :=
  ⟨"1", "主题", 5, [⟨"slide-0", "data:image/png;base64,QUJD", "主题", "要点"⟩], "专业",
    "现代简约", []⟩

/-- A state with a short topic, no attachment, not loading, key selected. -/
def topicState : GenState :=
  ⟨"量子计算简介", none, "专业", "现代简约", "简体中文", 5, false, true, false⟩

/-- A state identical to topicState except that the key check has finished
and reported that no key is selected. -/
def gateState : GenState :=
  ⟨"量子计算简介", none, "专业", "现代简约", "简体中文", 5, false, false, false⟩

/-- Text-model response whose text admits no outline parse, no grounding. -/
def plainTextResp : TextGenResponse := ⟨some "x", []⟩

/-- Oracles under which every slide render comes back without any image. -/
def failingRenderOracle : GenOracles := ⟨plainTextResp, noParse, fun _ => ⟨[]⟩, 0⟩

/-- An image-model response carrying an inline image payload. -/
def okImageResponse : ImageGenResponse := ⟨[⟨some ⟨[⟨some ⟨some "QUJD"⟩⟩]⟩⟩]⟩

/-- Oracles under which every slide render succeeds. -/
def okRenderOracle : GenOracles := ⟨plainTextResp, noParse, fun _ => okImageResponse, 7⟩

/-- A JSON parser oracle that parses the literal empty array and nothing
else. -/
def emptyArrayParse : String → Option (List SlideOutline) :=
  fun s => if s = "[]" then some [] else none

/-- Oracles whose outline response is a parseable empty JSON array. -/
def emptyOutlineOracle : GenOracles := ⟨⟨some "[]", []⟩, emptyArrayParse, fun _ => ⟨[]⟩, 0⟩

/-- Oracles with a parseable empty JSON array and succeeding renders. -/
def emptyOkOracle : GenOracles := ⟨⟨some "[]", []⟩, emptyArrayParse, fun _ => okImageResponse, 0⟩

/-- A free-text input of 251 characters, one over the article threshold. -/
def longInput : String := ⟨List.replicate 251 'a'⟩

/-! # Theorems -/

/-! ## String containment -/

theorem strData_append (a b : String) : (a ++ b).data = a.data ++ b.data := by
  cases a; cases b; rfl

theorem strLeads_iff (needle hay : List Char) :
    strLeads needle hay = true ↔ ∃ r, hay = needle ++ r := by
  induction needle generalizing hay with
  | nil => simp [strLeads]
  | cons a as ih =>
    cases hay with
    | nil =>
      simp [strLeads]
    | cons b bs =>
      simp only [strLeads, Bool.and_eq_true, beq_iff_eq, ih, List.cons_append, List.cons.injEq]
      constructor
      · rintro ⟨hab, r, hr⟩
        exact ⟨r, hab.symm, hr⟩
      · rintro ⟨r, hba, hr⟩
        exact ⟨hba.symm, r, hr⟩

theorem strHas_iff (hay needle : List Char) :
    strHas hay needle = true ↔ ∃ l r, hay = l ++ needle ++ r := by
  induction hay with
  | nil =>
    simp only [strHas, strLeads_iff]
    constructor
    · rintro ⟨r, hr⟩
      rcases List.append_eq_nil.mp hr.symm with ⟨h1, h2⟩
      exact ⟨[], [], by simp [h1, h2]⟩
    · rintro ⟨l, r, hr⟩
      rcases List.append_eq_nil.mp ((List.append_eq_nil.mp hr.symm).1) with ⟨h1, h2⟩
      exact ⟨[], by simp [h2]⟩
  | cons h t ih =>
    simp only [strHas, Bool.or_eq_true, strLeads_iff, ih]
    constructor
    · rintro (⟨r, hr⟩ | ⟨l, r, hr⟩)
      · exact ⟨[], r, by simp [hr]⟩
      · exact ⟨h :: l, r, by simp [hr]⟩
    · rintro ⟨l, r, hr⟩
      cases l with
      | nil => exact Or.inl ⟨r, by simpa using hr⟩
      | cons x xs =>
        simp only [List.cons_append, List.cons.injEq] at hr
        exact Or.inr ⟨xs, r, hr.2⟩

theorem strContains_iff (s pat : String) :
    strContains s pat = true ↔ ∃ pre post : String, s = pre ++ pat ++ post := by
  unfold strContains
  rw [strHas_iff]
  constructor
  · rintro ⟨l, r, hr⟩
    refine ⟨⟨l⟩, ⟨r⟩, ?_⟩
    cases s with
    | mk data =>
      cases pat with
      | mk pd =>
        simp only [List.cons_append] at hr
        exact congrArg String.mk (by simpa using hr)
  · rintro ⟨pre, post, hr⟩
    exact ⟨pre.data, post.data, by simp [hr, strData_append]⟩

/-! ## Generic fold lemmas -/

theorem foldl_append_map (g : α → β) (l : List α) (acc : List β) :
    l.foldl (fun acc s => acc ++ [g s]) acc = acc ++ l.map g := by
  induction l generalizing acc with
  | nil => simp
  | cons a t ih => simp [ih]

theorem foldl_collectStep (cs : List GroundingChunk) : ∀ acc,
    cs.foldl collectStep acc = acc ++ cs.filterMap chunkItem := by
  induction cs with
  | nil => intro acc; simp
  | cons c t ih =>
    intro acc
    cases hf : chunkItem c <;> simp [collectStep, hf, ih]

theorem enumFrom_snoc (x : α) (l : List α) : ∀ n : Nat,
    List.enumFrom n (l ++ [x]) = List.enumFrom n l ++ [(n + l.length, x)] := by
  induction l with
  | nil => intro n; simp [List.enumFrom]
  | cons a t ih =>
    intro n
    have h1 : ((a :: t) ++ [x]) = a :: (t ++ [x]) := rfl
    have h2 : List.enumFrom n (a :: (t ++ [x])) = (n, a) :: List.enumFrom (n + 1) (t ++ [x]) := rfl
    have h3 : List.enumFrom n (a :: t) = (n, a) :: List.enumFrom (n + 1) t := rfl
    have h4 : n + 1 + t.length = n + (a :: t).length := by
      simp only [List.length_cons]; omega
    rw [h1, h2, ih (n + 1), h3, h4]
    rfl

theorem enum_snoc (l : List α) (x : α) : (l ++ [x]).enum = l.enum ++ [(l.length, x)] := by
  have := enumFrom_snoc x l 0
  simpa [List.enum] using this

/-! ## Claim C9: credential-error reclassification -/

/-- Claim C9: for every failure message of a generation attempt, if the
message contains "Requested entity was not found", "404", or "403", the
failure is reported as the distinct credential/billing error with the
credential flag reset; every other message yields the generic
generation-failure report with the flag untouched. -/
theorem C9_error_reclassification (msg : String) :
    (((∃ pre post : String, msg = pre ++ "Requested entity was not found" ++ post) ∨
      (∃ pre post : String, msg = pre ++ "404" ++ post) ∨
      (∃ pre post : String, msg = pre ++ "403" ++ post)) →
      classifyGenError msg = .failure credFailureMsg true) ∧
    ((¬ ((∃ pre post : String, msg = pre ++ "Requested entity was not found" ++ post) ∨
      (∃ pre post : String, msg = pre ++ "404" ++ post) ∨
      (∃ pre post : String, msg = pre ++ "403" ++ post))) →
      classifyGenError msg = .failure genericFailureMsg false) := by
  constructor
  · intro h
    have hcond : (strContains msg "Requested entity was not found" || strContains msg "404" ||
        strContains msg "403") = true := by
      rcases h with h | h | h
      · simp [(strContains_iff _ _).mpr h]
      · simp [(strContains_iff _ _).mpr h]
      · simp [(strContains_iff _ _).mpr h]
    simp [classifyGenError, hcond]
  · intro h
    have h1 : strContains msg "Requested entity was not found" = false := by
      rcases hb : strContains msg "Requested entity was not found" with _ | _
      · rfl
      · exact absurd (Or.inl ((strContains_iff _ _).mp hb)) h
    have h2 : strContains msg "404" = false := by
      rcases hb : strContains msg "404" with _ | _
      · rfl
      · exact absurd (Or.inr (Or.inl ((strContains_iff _ _).mp hb))) h
    have h3 : strContains msg "403" = false := by
      rcases hb : strContains msg "403" with _ | _
      · rfl
      · exact absurd (Or.inr (Or.inr ((strContains_iff _ _).mp hb))) h
    simp [classifyGenError, h1, h2, h3]

/-- Witness for C9 at two concrete messages, one per classification side. -/
theorem C9_error_reclassification_witness :
    classifyGenError "Error 404: Requested entity was not found" =
        .failure credFailureMsg true ∧
      classifyGenError "network timeout" = .failure genericFailureMsg false :=
  ⟨(C9_error_reclassification "Error 404: Requested entity was not found").1
      (Or.inr (Or.inl ⟨"Error ", ": Requested entity was not found", by decide⟩)),
    (C9_error_reclassification "network timeout").2 (by
      rintro (h | h | h)
      · exact absurd ((strContains_iff "network timeout" "Requested entity was not found").mpr h)
          (by decide)
      · exact absurd ((strContains_iff "network timeout" "404").mpr h) (by decide)
      · exact absurd ((strContains_iff "network timeout" "403").mpr h) (by decide))⟩

/-! ## Claim C3: outline-parse degradation -/

theorem firstBracket_eq_none (cs : List Char) (h : ∀ c ∈ cs, c ≠ '[') :
    firstBracket cs = none := by
  induction cs with
  | nil => rfl
  | cons c t ih =>
    simp only [firstBracket]
    rw [if_neg (h c (by simp)), ih (fun x hx => h x (by simp [hx]))]
    rfl

theorem renderRequests_eq (outline : List SlideOutline) (renders : Nat → ImageGenResponse) :
    (outline.enum.map (fun pr => renderSlide pr.1 pr.2 (renders pr.1))).map (fun pr => pr.1) =
      outline.map slideImagePrompt := by
  rw [List.map_map]
  have h1 : ((fun pr : String × Except String Slide => pr.1) ∘
      fun pr : Nat × SlideOutline => renderSlide pr.1 pr.2 (renders pr.1)) =
      (slideImagePrompt ∘ Prod.snd) := rfl
  rw [h1, ← List.map_map, List.enum_map_snd]

theorem renderRequests_eq_comp (outline : List SlideOutline)
    (renders : Nat → ImageGenResponse) :
    outline.enum.map ((fun pr : String × Except String Slide => pr.1) ∘
      (fun pr : Nat × SlideOutline => renderSlide pr.1 pr.2 (renders pr.1))) =
      outline.map slideImagePrompt := by
  rw [← List.map_map]
  exact renderRequests_eq outline renders

/-- Claim C3: when the response text holds no array-shaped substring, or the
host JSON parse of that substring fails, the outline synthesizer degrades to
exactly one synthetic entry (生成失败 / 无法解析大纲结构，请重试。 with a generic
visual directive) instead of failing, and the pipeline goes on to issue one
render request per resulting entry; when the parse succeeds the parsed array
is returned as is, with no re-validation of the slide count. -/
theorem C3_outline_parse_degradation (text : String)
    (jsonParse : String → Option (List SlideOutline)) :
    (extractArray text = none → parseOutlineText text jsonParse = [fallbackOutlineEntry]) ∧
    (∀ s, extractArray text = some s → jsonParse s = none →
      parseOutlineText text jsonParse = [fallbackOutlineEntry]) ∧
    (∀ s arr, extractArray text = some s → jsonParse s = some arr →
      parseOutlineText text jsonParse = arr) ∧
    ((∀ c ∈ text.data, c ≠ '[') → parseOutlineText text jsonParse = [fallbackOutlineEntry]) ∧
    (∀ (st : GenState) (o : GenOracles), st.isLoading = false →
      ¬(jsTrim st.inputText = "" ∧ st.uploadedFile = none) →
      o.outlineResp.text = some text → o.jsonParse = jsonParse →
      (handleGenerate st o).renderRequests =
        (parseOutlineText text jsonParse).map slideImagePrompt) := by
  refine ⟨?_, ?_, ?_, ?_, ?_⟩
  · intro h; simp [parseOutlineText, h]
  · intro s h1 h2; simp [parseOutlineText, h1, h2]
  · intro s arr h1 h2; simp [parseOutlineText, h1, h2]
  · intro h
    have hfb : firstBracket text.data = none := firstBracket_eq_none text.data h
    have hex : extractArray text = none := by
      unfold extractArray
      rw [hfb]
    simp [parseOutlineText, hex]
  · intro st o hload hinput htext hjp
    have hout : outlineOf st o = parseOutlineText text jsonParse := by
      simp [outlineOf, outlineResultOf, generatePresentationOutline, htext, hjp]
    have hreq : requestsOf st o = (parseOutlineText text jsonParse).map slideImagePrompt := by
      unfold requestsOf renderedOf
      rw [hout]
      exact renderRequests_eq (parseOutlineText text jsonParse) o.renders
    unfold handleGenerate
    rw [hload]
    simp only [Bool.false_eq_true, if_false]
    rw [if_neg hinput]
    split
    · exact hreq
    · split
      · exact hreq
      · exact hreq

/-- Witness for C3: a response text with no array-shaped substring degrades
to the single synthetic entry. -/
theorem C3_outline_parse_degradation_witness :
    parseOutlineText "no array in this reply" noParse = [fallbackOutlineEntry] :=
  (C3_outline_parse_degradation "no array in this reply" noParse).1 (by decide)

/-! ## Claim C5: unsupported-upload handling (corrected) -/

/-- Counterexample to C5 as stated: uploading a file of unsupported MIME
type image/png over a previously attached document does reject with the
unsupported-file error, but it does not leave prior state untouched: the
previously attached document is cleared by the reset that precedes the
type dispatch. -/
theorem C5_counterexample :
    (handleFileUpload priorUploadState (some pngBlob) (.error ())).error =
        some unsupportedFileMsg ∧
      (handleFileUpload priorUploadState (some pngBlob) (.error ())).uploadedFile = none ∧
      priorUploadState.uploadedFile ≠ none := by
  decide

/-- Claim C5 (amended): for every upload whose MIME type is unrecognized
(not PDF, not a word-processing document by name or type, not plain text),
the upload is rejected with the unsupported-file-type error and the
accumulated input text is left untouched, but any previously attached
document is cleared, because the handler resets the attachment and error
state before dispatching on the type. -/
theorem C5_unsupported_upload (st : UploadState) (f : FileBlob) (mr : Except Unit String)
    (h1 : f.type ≠ "application/pdf") (h2 : strEndsWith f.name ".docx" = false)
    (h3 : f.type ≠ docxMime) (h4 : f.type ≠ "text/plain") :
    handleFileUpload st (some f) mr = ⟨st.inputText, none, some unsupportedFileMsg⟩ := by
  obtain ⟨it, uf, er⟩ := st
  simp [handleFileUpload, h1, h2, h3, h4]

/-- Witness for C5 (amended) at a concrete PNG upload. -/
theorem C5_unsupported_upload_witness :
    handleFileUpload priorUploadState (some pngBlob) (.error ()) =
      ⟨"现有文本", none, some unsupportedFileMsg⟩ :=
  C5_unsupported_upload priorUploadState pngBlob (.error ()) (by decide) (by decide) (by decide)
    (by decide)

/-! ## Claim C8: export shape (corrected) -/

theorem exportPDF_pages (l : List Slide) :
    (l.enum.foldl pdfStep ⟨[[]]⟩).pages =
      if l = [] then [[]] else l.map (fun s => [⟨s.data, "PNG", 0, 0, 1280, 720⟩]) := by
  induction l using List.reverseRecOn with
  | nil => rfl
  | append_singleton t x ih =>
    rw [enum_snoc, List.foldl_append]
    rcases eq_or_ne t [] with rfl | ht
    · simp [pdfStep, pdfAddImage, pdfAddPage]
    · have hd : ((t.enum.foldl pdfStep ⟨[[]]⟩)).pages =
          t.map (fun s => [(⟨s.data, "PNG", 0, 0, 1280, 720⟩ : PdfImage)]) := by
        rw [ih, if_neg ht]
      have hlen : t.length > 0 := List.length_pos.mpr ht
      simp only [List.foldl_cons, List.foldl_nil, pdfStep, if_pos hlen, pdfAddImage, pdfAddPage,
        hd, List.dropLast_concat, List.getLast?_concat, Option.getD_some, List.nil_append]
      rw [if_neg (by simp)]
      simp

/-- Counterexample to C8 as stated: a Presentation with zero slides is
exported to a paginated document with one (empty) page, not zero pages. -/
theorem C8_counterexample :
    ¬ ((exportPDF emptyPresentation).pages.length = emptyPresentation.slides.length) := by
  decide

/-- Claim C8 (amended): for every Presentation with at least one slide, the
paginated-document export yields exactly one 1280 x 720 page per slide in
deck order, each filled with that slide image (a zero-slide deck still
yields one blank page); the slideshow-package export yields exactly one
package slide per deck slide in order, the image covering the full canvas,
with the speakerNotes attached verbatim as a presenter note when they are
nonempty and no note attached when they are the empty string. Both exports
are pure functions of the Presentation. -/
theorem C8_export_shapes (p : Presentation) (h : p.slides ≠ []) :
    (exportPDF p).pages = p.slides.map (fun s => [⟨s.data, "PNG", 0, 0, 1280, 720⟩]) ∧
    exportPPT p = p.slides.map (fun s =>
      ⟨[⟨s.data, 0, 0, "100%", "100%"⟩],
        if s.speakerNotes ≠ "" then some s.speakerNotes else none⟩) ∧
    (exportPPT p).length = p.slides.length := by
  refine ⟨?_, ?_, ?_⟩
  · show (p.slides.enum.foldl pdfStep ⟨[[]]⟩).pages = _
    rw [exportPDF_pages, if_neg h]
  · unfold exportPPT
    rw [foldl_append_map]
    rfl
  · unfold exportPPT
    rw [foldl_append_map]
    simp

/-- Witness for C8 (amended) at a one-slide Presentation. -/
theorem C8_export_shapes_witness :
    (exportPDF samplePresentation).pages =
      [[⟨"data:image/png;base64,QUJD", "PNG", 0, 0, 1280, 720⟩]] :=
  ((C8_export_shapes samplePresentation (by decide)).1).trans (by decide)

/-! ## Claim C6: citation deduplication -/

theorem mem_keepFirstAux (b : String) : ∀ (l seen : List String),
    b ∈ keepFirstAux seen l ↔ b ∈ l ∧ b ∉ seen := by
  intro l
  induction l with
  | nil => intro seen; simp [keepFirstAux]
  | cons a t ih =>
    intro seen
    by_cases ha : a ∈ seen
    · rw [keepFirstAux, if_pos ha, ih seen]
      simp only [List.mem_cons]
      constructor
      · rintro ⟨hb, hn⟩; exact ⟨Or.inr hb, hn⟩
      · rintro ⟨rfl | hb, hn⟩
        · exact absurd ha hn
        · exact ⟨hb, hn⟩
    · rw [keepFirstAux, if_neg ha]
      constructor
      · intro hmem
        rcases List.mem_cons.mp hmem with rfl | hmem2
        · exact ⟨List.mem_cons_self _ _, ha⟩
        · obtain ⟨hb, hn⟩ := (ih (seen ++ [a])).mp hmem2
          refine ⟨List.mem_cons_of_mem a hb, fun hc => hn ?_⟩
          exact List.mem_append.mpr (Or.inl hc)
      · rintro ⟨hmem, hn⟩
        by_cases hba : b = a
        · subst hba; exact List.mem_cons_self _ _
        · have hb : b ∈ t := by
            rcases List.mem_cons.mp hmem with h | h
            · exact absurd h hba
            · exact h
          refine List.mem_cons_of_mem a ((ih (seen ++ [a])).mpr ⟨hb, fun hc => ?_⟩)
          rcases List.mem_append.mp hc with hc | hc
          · exact hn hc
          · exact hba (List.mem_singleton.mp hc)

theorem keepFirstAux_nodup (l : List String) : ∀ seen, (keepFirstAux seen l).Nodup := by
  induction l with
  | nil => intro seen; simp [keepFirstAux]
  | cons a t ih =>
    intro seen
    by_cases ha : a ∈ seen
    · rw [keepFirstAux, if_pos ha]; exact ih seen
    · rw [keepFirstAux, if_neg ha]
      refine List.nodup_cons.mpr ⟨fun hc => ?_, ih (seen ++ [a])⟩
      exact ((mem_keepFirstAux a t (seen ++ [a])).mp hc).2 (by simp)

theorem keepFirstAux_snoc (u : String) : ∀ (us seen : List String),
    keepFirstAux seen (us ++ [u]) =
      keepFirstAux seen us ++ (if u ∈ seen ∨ u ∈ us then [] else [u]) := by
  intro us
  induction us with
  | nil =>
    intro seen
    by_cases h : u ∈ seen
    · simp [keepFirstAux, h]
    · simp [keepFirstAux, h]
  | cons a t ih =>
    intro seen
    by_cases ha : a ∈ seen
    · rw [List.cons_append, keepFirstAux, if_pos ha, keepFirstAux, if_pos ha, ih seen]
      have hiff : (u ∈ seen ∨ u ∈ t) ↔ (u ∈ seen ∨ u ∈ a :: t) := by
        simp only [List.mem_cons]
        constructor
        · tauto
        · rintro (h | rfl | h)
          · exact Or.inl h
          · exact Or.inl ha
          · exact Or.inr h
      simp only [hiff]
    · rw [List.cons_append, keepFirstAux, if_neg ha, keepFirstAux, if_neg ha, ih (seen ++ [a])]
      have hiff : (u ∈ seen ++ [a] ∨ u ∈ t) ↔ (u ∈ seen ∨ u ∈ a :: t) := by
        simp only [List.mem_append, List.mem_singleton, List.mem_cons]
        tauto
      simp only [hiff, List.cons_append]

theorem keys_mapInsert (m : List (String × SearchResultItem)) (k : String)
    (v : SearchResultItem) :
    (mapInsert m k v).map Prod.fst =
      if k ∈ m.map Prod.fst then m.map Prod.fst else m.map Prod.fst ++ [k] := by
  induction m with
  | nil => simp [mapInsert]
  | cons p rest ih =>
    by_cases hp : p.1 = k
    · have hc : k ∈ (p :: rest).map Prod.fst := by simp [← hp]
      rw [if_pos hc]
      simp [mapInsert, hp]
    · simp only [mapInsert, if_neg hp]
      by_cases hk : k ∈ rest.map Prod.fst
      · rw [if_pos (by simp [hk])]
        simp [ih, hk]
      · rw [if_neg (by
          simp only [List.map_cons, List.mem_cons]
          rintro (h | h)
          · exact hp h.symm
          · exact hk h)]
        simp [ih, hk]

theorem mem_mapInsert (m : List (String × SearchResultItem)) (k : String)
    (v : SearchResultItem) (hnd : (m.map Prod.fst).Nodup) (pr : String × SearchResultItem) :
    pr ∈ mapInsert m k v ↔ pr = (k, v) ∨ (pr ∈ m ∧ pr.1 ≠ k) := by
  induction m with
  | nil => simp [mapInsert]
  | cons p rest ih =>
    have hnd2 : (rest.map Prod.fst).Nodup := (List.nodup_cons.mp (by simpa using hnd)).2
    have hp1 : p.1 ∉ rest.map Prod.fst := (List.nodup_cons.mp (by simpa using hnd)).1
    by_cases hp : p.1 = k
    · simp only [mapInsert, if_pos hp, List.mem_cons]
      constructor
      · rintro (rfl | hpr)
        · exact Or.inl rfl
        · refine Or.inr ⟨Or.inr hpr, fun hc => hp1 ?_⟩
          have hm := List.mem_map_of_mem Prod.fst hpr
          rwa [hc.trans hp.symm] at hm
      · rintro (rfl | ⟨hpr | hpr, hne⟩)
        · exact Or.inl rfl
        · exact absurd (hpr ▸ hp) hne
        · exact Or.inr hpr
    · simp only [mapInsert, if_neg hp, List.mem_cons, ih hnd2]
      constructor
      · rintro (rfl | rfl | ⟨hpr, hne⟩)
        · exact Or.inr ⟨Or.inl rfl, fun hc => hp hc⟩
        · exact Or.inl rfl
        · exact Or.inr ⟨Or.inr hpr, hne⟩
      · rintro (rfl | ⟨hpr | hpr, hne⟩)
        · exact Or.inr (Or.inl rfl)
        · exact Or.inl hpr
        · exact Or.inr (Or.inr ⟨hpr, hne⟩)

theorem jsMapOf_snoc (l : List SearchResultItem) (x : SearchResultItem) :
    jsMapOf (l ++ [x]) = mapInsert (jsMapOf l) x.url x := by
  simp [jsMapOf, List.foldl_append]

theorem jsMapOf_keys (l : List SearchResultItem) :
    (jsMapOf l).map Prod.fst = keepFirst (l.map (fun s => s.url)) := by
  induction l using List.reverseRecOn with
  | nil => rfl
  | append_singleton t x ih =>
    rw [jsMapOf_snoc, keys_mapInsert, ih, List.map_append]
    simp only [List.map_cons, List.map_nil, keepFirst]
    rw [keepFirstAux_snoc x.url (t.map (fun s => s.url)) []]
    have hmem : x.url ∈ keepFirstAux [] (t.map (fun s => s.url)) ↔
        x.url ∈ t.map (fun s => s.url) := by
      rw [mem_keepFirstAux]; simp
    by_cases hx : x.url ∈ t.map (fun s => s.url)
    · rw [if_pos (hmem.mpr hx), if_pos (by simp [hx])]
      simp
    · rw [if_neg (fun hc => hx (hmem.mp hc)), if_neg (by simp [hx])]

theorem jsMapOf_nodup_keys (l : List SearchResultItem) : ((jsMapOf l).map Prod.fst).Nodup := by
  rw [jsMapOf_keys]
  exact keepFirstAux_nodup _ []

theorem jsMapOf_mem (l : List SearchResultItem) : ∀ pr ∈ jsMapOf l,
    pr.1 = pr.2.url ∧ (l.filter (fun t => t.url == pr.1)).getLast? = some pr.2 := by
  induction l using List.reverseRecOn with
  | nil => intro pr hpr; simp [jsMapOf] at hpr
  | append_singleton t x ih =>
    intro pr hpr
    rw [jsMapOf_snoc] at hpr
    rcases (mem_mapInsert _ _ _ (jsMapOf_nodup_keys t) pr).mp hpr with rfl | ⟨hpr2, hne⟩
    · refine ⟨rfl, ?_⟩
      rw [List.filter_append]
      simp
    · obtain ⟨h1, h2⟩ := ih pr hpr2
      refine ⟨h1, ?_⟩
      rw [List.filter_append]
      have hxf : (x.url == pr.1) = false := by
        simp only [beq_eq_false_iff_ne, ne_eq]
        exact fun hc => hne hc.symm
      simp [hxf, h2]

/-- Claim C6: sources are collected only from grounding chunks carrying both
a URL and a title; the final citation list holds exactly one entry per
distinct URL, in order of first occurrence of each URL, and for each URL the
last-seen payload wins; on the concrete input
[(urlA, T1), (urlB, T2), (urlA, T3)] the result is [(urlA, T3), (urlB, T2)]. -/
theorem C6_citation_dedup (l : List SearchResultItem) (chunks : List GroundingChunk) :
    ((dedupSources l).map (fun s => s.url)).Nodup ∧
    (dedupSources l).map (fun s => s.url) = keepFirst (l.map (fun s => s.url)) ∧
    (∀ s ∈ dedupSources l, (l.filter (fun t => t.url == s.url)).getLast? = some s) ∧
    collectSources (some chunks) = chunks.filterMap chunkItem ∧
    dedupSources [⟨"T1", "urlA"⟩, ⟨"T2", "urlB"⟩, ⟨"T3", "urlA"⟩] =
      [⟨"T3", "urlA"⟩, ⟨"T2", "urlB"⟩] := by
  have hkeys : (dedupSources l).map (fun s => s.url) = (jsMapOf l).map Prod.fst := by
    unfold dedupSources
    rw [List.map_map]
    exact List.map_congr_left (fun pr hpr => ((jsMapOf_mem l) pr hpr).1.symm)
  refine ⟨?_, ?_, ?_, ?_, ?_⟩
  · rw [hkeys]; exact jsMapOf_nodup_keys l
  · rw [hkeys]; exact jsMapOf_keys l
  · intro s hs
    rcases List.mem_map.mp hs with ⟨pr, hpr, rfl⟩
    obtain ⟨h1, h2⟩ := jsMapOf_mem l pr hpr
    rw [← h1]
    exact h2
  · simp only [collectSources]
    exact (foldl_collectStep chunks []).trans (List.nil_append _)
  · decide

/-- Witness for C6: on the concrete citation list the deduplicated entry for
urlA is a member whose payload is the last occurrence of urlA. -/
theorem C6_citation_dedup_witness :
    (([⟨"T1", "urlA"⟩, ⟨"T2", "urlB"⟩, ⟨"T3", "urlA"⟩] : List SearchResultItem).filter
        (fun t => t.url == "urlA")).getLast? = some ⟨"T3", "urlA"⟩ :=
  (C6_citation_dedup [⟨"T1", "urlA"⟩, ⟨"T2", "urlB"⟩, ⟨"T3", "urlA"⟩] []).2.2.1
    ⟨"T3", "urlA"⟩ (by decide)

/-! ## Render and join lemmas -/

theorem generateSlideImage_eq_payload (s : SlideOutline) (resp : ImageGenResponse) :
    (generateSlideImage s resp).2 =
      (match imagePayloadOf resp with
        | some d => if d ≠ "" then Except.ok ("data:image/png;base64," ++ d)
            else Except.error renderFailureMsg
        | none => Except.error renderFailureMsg) := by
  cases hfp : firstPart resp with
  | none => simp [generateSlideImage, imagePayloadOf, hfp]
  | some part =>
    cases hid : part.inlineData with
    | none => simp [generateSlideImage, imagePayloadOf, hfp, hid]
    | some idata =>
      cases hd : idata.data with
      | none => simp [generateSlideImage, imagePayloadOf, hfp, hid, hd]
      | some d => simp [generateSlideImage, imagePayloadOf, hfp, hid, hd]

theorem generateSlideImage_ok (s : SlideOutline) (resp : ImageGenResponse)
    (h : renderOkB resp = true) :
    (generateSlideImage s resp).2 = .ok (dataUrlOf resp) := by
  rw [generateSlideImage_eq_payload]
  unfold renderOkB at h
  unfold dataUrlOf
  cases hp : imagePayloadOf resp with
  | none => rw [hp] at h; simp at h
  | some d =>
    rw [hp] at h
    simp only [decide_eq_true_eq] at h
    simp [h]

theorem generateSlideImage_fail (s : SlideOutline) (resp : ImageGenResponse)
    (h : renderOkB resp = false) :
    (generateSlideImage s resp).2 = .error renderFailureMsg := by
  rw [generateSlideImage_eq_payload]
  unfold renderOkB at h
  cases hp : imagePayloadOf resp with
  | none => rfl
  | some d =>
    rw [hp] at h
    simp only [decide_eq_false_iff_not, not_not] at h
    simp [h]

theorem renderSlide_ok (i : Nat) (s : SlideOutline) (resp : ImageGenResponse)
    (h : renderOkB resp = true) :
    (renderSlide i s resp).2 = .ok (expectedSlide i s resp) := by
  show ((generateSlideImage s resp).2.map _) = _
  rw [generateSlideImage_ok s resp h]
  rfl

theorem renderSlide_fail (i : Nat) (s : SlideOutline) (resp : ImageGenResponse)
    (h : renderOkB resp = false) :
    (renderSlide i s resp).2 = .error renderFailureMsg := by
  show ((generateSlideImage s resp).2.map _) = _
  rw [generateSlideImage_fail s resp h]
  rfl

theorem renderSlide_cases (i : Nat) (s : SlideOutline) (resp : ImageGenResponse) :
    (renderSlide i s resp).2 = .error renderFailureMsg ∨
      ∃ v, (renderSlide i s resp).2 = .ok v := by
  cases h : renderOkB resp
  · exact Or.inl (renderSlide_fail i s resp h)
  · exact Or.inr ⟨_, renderSlide_ok i s resp h⟩

theorem promiseAll_all_ok (l : List α) (f : α → Except String Slide) (g : α → Slide)
    (h : ∀ x ∈ l, f x = .ok (g x)) :
    promiseAll (l.map f) = .ok (l.map g) := by
  induction l with
  | nil => rfl
  | cons a t ih =>
    rw [List.map_cons, h a (by simp)]
    show (promiseAll (t.map f)).map _ = _
    rw [ih (fun x hx => h x (by simp [hx]))]
    rfl

theorem promiseAll_error_uniform (l : List (Except String Slide)) (msg : String)
    (hall : ∀ x ∈ l, x = .error msg ∨ ∃ v, x = .ok v)
    (hsome : ∃ x, x ∈ l ∧ x = Except.error msg) :
    promiseAll l = .error msg := by
  induction l with
  | nil =>
    obtain ⟨x, hx, _⟩ := hsome
    simp at hx
  | cons a t ih =>
    rcases hall a (by simp) with rfl | ⟨v, rfl⟩
    · rfl
    · obtain ⟨x, hx, hxe⟩ := hsome
      rcases List.mem_cons.mp hx with rfl | hx2
      · exact absurd hxe (by simp)
      · have hrec := ih (fun y hy => hall y (by simp [hy])) ⟨x, hx2, hxe⟩
        show (promiseAll t).map _ = _
        rw [hrec]
        rfl

theorem classify_ne_success (msg : String) (p : Presentation) :
    classifyGenError msg ≠ .success p := by
  unfold classifyGenError
  split <;> simp

theorem classify_renderFailure_eq :
    classifyGenError renderFailureMsg = .failure genericFailureMsg false := by decide

theorem classify_undefinedTitle_eq :
    classifyGenError undefinedTitleMsg = .failure genericFailureMsg false := by decide

theorem requestsOf_eq (st : GenState) (o : GenOracles) :
    requestsOf st o = (outlineOf st o).map slideImagePrompt := by
  unfold requestsOf renderedOf
  exact renderRequests_eq _ _

/-! ## Claim C1: all-or-nothing assembly -/

/-- Claim C1: if the image response for any one outline index carries no
image payload, that render rejects with the message Failed to generate slide
image, and the whole generation attempt ends in an error: no Presentation is
ever produced, and when the guards pass the reported result is the generic
failure. -/
theorem C1_all_or_nothing (st : GenState) (o : GenOracles) (i : Nat)
    (hi : i < (outlineOf st o).length) (hfail : renderOkB (o.renders i) = false) :
    (∀ s : SlideOutline, (generateSlideImage s (o.renders i)).2 = .error renderFailureMsg) ∧
    (∀ p : Presentation, (handleGenerate st o).result ≠ GenResult.success p) ∧
    (st.isLoading = false → ¬(jsTrim st.inputText = "" ∧ st.uploadedFile = none) →
      (handleGenerate st o).result = GenResult.failure genericFailureMsg false) := by
  have hmain : st.isLoading = false → ¬(jsTrim st.inputText = "" ∧ st.uploadedFile = none) →
      (handleGenerate st o).result = GenResult.failure genericFailureMsg false := by
    intro hload hinput
    have hser : promiseAll ((renderedOf st o).map (fun pr => pr.2)) =
        Except.error renderFailureMsg := by
      unfold renderedOf
      rw [List.map_map]
      apply promiseAll_error_uniform
      · intro x hx
        rcases List.mem_map.mp hx with ⟨pr, hpr, rfl⟩
        exact renderSlide_cases pr.1 pr.2 (o.renders pr.1)
      · obtain ⟨a, ha⟩ : ∃ a, (outlineOf st o)[i]? = some a :=
          ⟨_, List.getElem?_eq_getElem hi⟩
        refine ⟨(renderSlide i a (o.renders i)).2,
          List.mem_map.mpr ⟨(i, a), ?_, rfl⟩, renderSlide_fail i a (o.renders i) hfail⟩
        exact List.getElem?_mem (by rw [List.getElem?_enum, ha]; rfl)
    unfold handleGenerate
    rw [hload]
    simp only [Bool.false_eq_true, if_false]
    rw [if_neg hinput, hser]
    exact classify_renderFailure_eq
  refine ⟨fun s => generateSlideImage_fail s _ hfail, ?_, hmain⟩
  intro p
  by_cases hload : st.isLoading
  · unfold handleGenerate
    rw [if_pos hload]
    simp
  · by_cases hinput : jsTrim st.inputText = "" ∧ st.uploadedFile = none
    · unfold handleGenerate
      rw [if_neg hload, if_pos hinput]
      simp
    · rw [hmain (Bool.eq_false_iff.mpr hload) hinput]
      simp

/-- Witness for C1: with a concrete state and an oracle whose image
responses are all empty, the attempt ends in the generic failure. -/
theorem C1_all_or_nothing_witness :
    (handleGenerate topicState failingRenderOracle).result =
      GenResult.failure genericFailureMsg false :=
  (C1_all_or_nothing topicState failingRenderOracle 0 (by decide) (by decide)).2.2
    (by decide) (by decide)

/-! ## Claim C10: empty-outline edge case -/

/-- When the parsed outline is empty, no render request is issued and the
attempt ends with the classification of the TypeError raised by the topic
derivation. -/
theorem handleGenerate_empty (st : GenState) (o : GenOracles)
    (hload : st.isLoading = false)
    (hinput : ¬(jsTrim st.inputText = "" ∧ st.uploadedFile = none))
    (hout : outlineOf st o = []) :
    requestsOf st o = [] ∧
    handleGenerate st o =
      ⟨some (outlineResultOf st o).request, requestsOf st o,
        classifyGenError undefinedTitleMsg⟩ := by
  have hreq : requestsOf st o = [] := by
    unfold requestsOf renderedOf
    rw [hout]
    rfl
  have hser : promiseAll ((renderedOf st o).map (fun pr => pr.2)) = Except.ok [] := by
    unfold renderedOf
    rw [hout]
    rfl
  have hhead : (outlineOf st o).head? = none := by rw [hout]; rfl
  refine ⟨hreq, ?_⟩
  unfold handleGenerate
  rw [hload]
  simp only [Bool.false_eq_true, if_false]
  rw [if_neg hinput, hser]
  show (match (outlineOf st o).head? with
    | none => (⟨some (outlineResultOf st o).request, requestsOf st o,
        classifyGenError undefinedTitleMsg⟩ : GenAttempt)
    | some e0 => ⟨some (outlineResultOf st o).request, requestsOf st o,
        .success ⟨toString o.now,
          if e0.title = "" then "Generated Presentation" else e0.title,
          o.now, [], st.complexityLevel, st.visualStyle,
          (outlineResultOf st o).sources⟩⟩) = _
  rw [hhead]

/-- Claim C10: when the response text holds a parseable JSON array that is
empty, the single-entry fallback is not substituted: the outline is empty,
no render request is issued, deck assembly fails while deriving the topic
from entry 0, the attempt ends in the generic error and no Presentation is
produced. -/
theorem C10_empty_outline (st : GenState) (o : GenOracles) (t s : String)
    (hload : st.isLoading = false)
    (hinput : ¬(jsTrim st.inputText = "" ∧ st.uploadedFile = none))
    (htext : o.outlineResp.text = some t)
    (hex : extractArray t = some s)
    (hparse : o.jsonParse s = some []) :
    outlineOf st o = [] ∧
    (handleGenerate st o).renderRequests = [] ∧
    (handleGenerate st o).result = GenResult.failure genericFailureMsg false ∧
    (∀ p : Presentation, (handleGenerate st o).result ≠ GenResult.success p) := by
  have hout : outlineOf st o = [] := by
    simp [outlineOf, outlineResultOf, generatePresentationOutline, htext, parseOutlineText,
      hex, hparse]
  obtain ⟨hreq, hres⟩ := handleGenerate_empty st o hload hinput hout
  refine ⟨hout, ?_, ?_, ?_⟩
  · rw [hres]
    exact hreq
  · rw [hres]
    exact classify_undefinedTitle_eq
  · intro p
    rw [hres]
    exact classify_ne_success undefinedTitleMsg p

/-- Witness for C10 at a concrete state and an oracle returning the literal
empty JSON array. -/
theorem C10_empty_outline_witness :
    (handleGenerate topicState emptyOutlineOracle).result =
      GenResult.failure genericFailureMsg false :=
  (C10_empty_outline topicState emptyOutlineOracle "[]" "[]" (by decide) (by decide)
    (by decide) (by decide) (by decide)).2.2.1

/-! ## Claim C2: order preservation under concurrent fan-out -/

theorem pair_mem_enum (l : List α) (j : Nat) (a : α) :
    (j, a) ∈ l.enum ↔ l[j]? = some a := by
  rw [List.mem_iff_getElem?]
  constructor
  · rintro ⟨i, hi⟩
    rw [List.getElem?_enum] at hi
    cases hl : l[i]? with
    | none => rw [hl] at hi; simp at hi
    | some b =>
      rw [hl] at hi
      simp only [Option.map_some', Option.some.injEq, Prod.mk.injEq] at hi
      obtain ⟨rfl, rfl⟩ := hi
      exact hl
  · intro h
    exact ⟨j, by rw [List.getElem?_enum, h]; rfl⟩

theorem mem_enum_fst_lt (l : List α) (pr : Nat × α) (h : pr ∈ l.enum) :
    pr.1 < l.length := by
  obtain ⟨j, a⟩ := pr
  have := (pair_mem_enum l j a).mp h
  rcases List.getElem?_eq_some_iff.mp this with ⟨hl, _⟩
  exact hl

theorem fill_not_mem (f : Nat → Slide) (order : List Nat) :
    ∀ (init : List (Option Slide)) (j : Nat),
    j ∉ order → (fillByArrival f order init)[j]? = init[j]? := by
  induction order with
  | nil => intro init j h; rfl
  | cons i t ih =>
    intro init j h
    have hj : j ∉ t := fun hc => h (List.mem_cons_of_mem _ hc)
    have hij : i ≠ j := fun hc => h (by rw [← hc]; exact List.mem_cons_self _ _)
    show (fillByArrival f t (init.set i (some (f i))))[j]? = _
    rw [ih _ j hj]
    exact List.getElem?_set_ne hij

theorem fill_mem (f : Nat → Slide) (order : List Nat) :
    ∀ (init : List (Option Slide)) (j : Nat),
    j ∈ order → j < init.length → (fillByArrival f order init)[j]? = some (some (f j)) := by
  induction order with
  | nil => intro init j h _; simp at h
  | cons i t ih =>
    intro init j h hlen
    by_cases hjt : j ∈ t
    · show (fillByArrival f t (init.set i (some (f i))))[j]? = _
      exact ih _ j hjt (by simpa using hlen)
    · have hji : j = i := by
        rcases List.mem_cons.mp h with h | h
        · exact h
        · exact absurd h hjt
      subst hji
      show (fillByArrival f t (init.set j (some (f j))))[j]? = _
      rw [fill_not_mem f t _ j hjt]
      exact List.getElem?_set_self hlen

theorem fill_complete (f : Nat → Slide) (n : Nat) (order : List Nat)
    (hcov : ∀ i, i ∈ order ↔ i < n) :
    fillByArrival f order (List.replicate n none) =
      (List.range n).map (fun i => some (f i)) := by
  apply List.ext_getElem?
  intro j
  by_cases hj : j < n
  · rw [fill_mem f order _ j ((hcov j).mpr hj) (by simpa using hj)]
    rw [List.getElem?_map, List.getElem?_range hj]
    rfl
  · rw [fill_not_mem f order _ j (fun hc => hj ((hcov j).mp hc))]
    rw [List.getElem?_eq_none (by simpa using Nat.le_of_not_lt hj),
      List.getElem?_eq_none (by simpa using Nat.le_of_not_lt hj)]

/-- On all-success the attempt resolves to a Presentation whose slides are
the expected slides in outline-index order. -/
theorem handleGenerate_success (st : GenState) (o : GenOracles)
    (hload : st.isLoading = false)
    (hinput : ¬(jsTrim st.inputText = "" ∧ st.uploadedFile = none))
    (hall : ∀ i, i < (outlineOf st o).length → renderOkB (o.renders i) = true)
    (e0 : SlideOutline) (hhead : (outlineOf st o).head? = some e0) :
    handleGenerate st o =
      ⟨some (outlineResultOf st o).request, requestsOf st o,
        .success ⟨toString o.now,
          if e0.title = "" then "Generated Presentation" else e0.title, o.now,
          (outlineOf st o).enum.map (fun pr => expectedSlide pr.1 pr.2 (o.renders pr.1)),
          st.complexityLevel, st.visualStyle, (outlineResultOf st o).sources⟩⟩ := by
  have hser : promiseAll ((renderedOf st o).map (fun pr => pr.2)) =
      Except.ok ((outlineOf st o).enum.map
        (fun pr => expectedSlide pr.1 pr.2 (o.renders pr.1))) := by
    unfold renderedOf
    have hmap : (((outlineOf st o).enum.map
        (fun pr => renderSlide pr.1 pr.2 (o.renders pr.1))).map (fun pr => pr.2)) =
        (outlineOf st o).enum.map (fun pr => (renderSlide pr.1 pr.2 (o.renders pr.1)).2) := by
      rw [List.map_map]
      rfl
    rw [hmap]
    exact promiseAll_all_ok ((outlineOf st o).enum)
      (fun pr => (renderSlide pr.1 pr.2 (o.renders pr.1)).2)
      (fun pr => expectedSlide pr.1 pr.2 (o.renders pr.1))
      (fun pr hpr => renderSlide_ok pr.1 pr.2 (o.renders pr.1)
        (hall pr.1 (mem_enum_fst_lt _ pr hpr)))
  unfold handleGenerate
  rw [hload]
  simp only [Bool.false_eq_true, if_false]
  rw [if_neg hinput, hser]
  show (match (outlineOf st o).head? with
    | none => (⟨some (outlineResultOf st o).request, requestsOf st o,
        classifyGenError undefinedTitleMsg⟩ : GenAttempt)
    | some e0 => ⟨some (outlineResultOf st o).request, requestsOf st o,
        .success ⟨toString o.now,
          if e0.title = "" then "Generated Presentation" else e0.title,
          o.now, (outlineOf st o).enum.map
            (fun pr : Nat × SlideOutline => expectedSlide pr.1 pr.2 (o.renders pr.1)),
          st.complexityLevel, st.visualStyle,
          (outlineResultOf st o).sources⟩⟩) = _
  rw [hhead]

/-- Counterexample to C2 as stated: for the empty outline sequence (length
0) every issued render succeeds vacuously, and the oracle renders would all
succeed anyway, yet no Presentation results: the attempt fails instead of
yielding a zero-slide Presentation. -/
theorem C2_counterexample :
    (∀ i, i < (outlineOf topicState emptyOkOracle).length →
      renderOkB (emptyOkOracle.renders i) = true) ∧
    (∀ p : Presentation,
      (handleGenerate topicState emptyOkOracle).result ≠ GenResult.success p) := by
  constructor
  · intro i hi
    show renderOkB okImageResponse = true
    decide
  · intro p
    have h := handleGenerate_empty topicState emptyOkOracle (by decide) (by decide) (by decide)
    rw [h.2]
    exact classify_ne_success undefinedTitleMsg p

/-- Claim C2 (amended): for every nonempty outline sequence of length N the
deck assembler issues exactly N render requests, one per outline entry in
index order; when all N renders succeed the result is a Presentation whose
slides list has length N, and slides at index i carries the positional
identifier slide-i, the data URL of the i-th render response, and the title
and content of outline entry i; the final order is reconstructed from the
outline index: filling a slot array in any completion order whatsoever
yields exactly the slides list. For the empty outline sequence (N equal 0)
no Presentation is produced at all; the attempt ends in the generic error. -/
theorem C2_order_preservation (st : GenState) (o : GenOracles)
    (hload : st.isLoading = false)
    (hinput : ¬(jsTrim st.inputText = "" ∧ st.uploadedFile = none))
    (hall : ∀ i, i < (outlineOf st o).length → renderOkB (o.renders i) = true)
    (hne : outlineOf st o ≠ []) :
    (handleGenerate st o).renderRequests.length = (outlineOf st o).length ∧
    (handleGenerate st o).renderRequests = (outlineOf st o).map slideImagePrompt ∧
    ∃ p : Presentation, (handleGenerate st o).result = GenResult.success p ∧
      p.slides.length = (outlineOf st o).length ∧
      (∀ j a, (outlineOf st o)[j]? = some a →
        p.slides[j]? = some (expectedSlide j a (o.renders j))) ∧
      (∀ order : List Nat, (∀ i, i ∈ order ↔ i < (outlineOf st o).length) →
        fillByArrival
          (fun i => expectedSlide i (((outlineOf st o)[i]?).getD default) (o.renders i))
          order (List.replicate (outlineOf st o).length none) = p.slides.map some) := by
  obtain ⟨e0, hhead⟩ : ∃ e0, (outlineOf st o).head? = some e0 := by
    cases hl : outlineOf st o with
    | nil => exact absurd hl hne
    | cons a t => exact ⟨a, rfl⟩
  have hgen := handleGenerate_success st o hload hinput hall e0 hhead
  have hslides : ∀ j, ((outlineOf st o).enum.map
      (fun pr => expectedSlide pr.1 pr.2 (o.renders pr.1)))[j]? =
      ((outlineOf st o)[j]?).map (fun a => expectedSlide j a (o.renders j)) := by
    intro j
    rw [List.getElem?_map, List.getElem?_enum]
    cases (outlineOf st o)[j]? with
    | none => rfl
    | some a => rfl
  refine ⟨?_, ?_, ?_⟩
  · rw [hgen]
    show (requestsOf st o).length = _
    rw [requestsOf_eq]
    exact List.length_map _ _
  · rw [hgen]
    exact requestsOf_eq st o
  · refine ⟨⟨toString o.now,
      if e0.title = "" then "Generated Presentation" else e0.title, o.now,
      (outlineOf st o).enum.map (fun pr => expectedSlide pr.1 pr.2 (o.renders pr.1)),
      st.complexityLevel, st.visualStyle, (outlineResultOf st o).sources⟩,
      ?_, ?_, ?_, ?_⟩
    · rw [hgen]
    · show ((outlineOf st o).enum.map _).length = _
      rw [List.length_map, List.enum_length]
    · intro j a hja
      show ((outlineOf st o).enum.map
        (fun pr => expectedSlide pr.1 pr.2 (o.renders pr.1)))[j]? = _
      rw [hslides j, hja]
      rfl
    · intro order hcov
      rw [fill_complete _ _ order hcov]
      apply List.ext_getElem?
      intro j
      rw [List.getElem?_map, List.getElem?_map, hslides j]
      by_cases hj : j < (outlineOf st o).length
      · simp [List.getElem?_range hj, List.getElem?_eq_getElem hj]
      · rw [List.getElem?_eq_none (by simpa using Nat.le_of_not_lt hj),
          List.getElem?_eq_none (Nat.le_of_not_lt hj)]
        rfl

/-- Witness for C2 (amended): with a one-entry outline and a succeeding
render oracle, the issued render requests are the slide prompts of the
outline in order. -/
theorem C2_order_preservation_witness :
    (handleGenerate topicState okRenderOracle).renderRequests =
      (outlineOf topicState okRenderOracle).map slideImagePrompt :=
  (C2_order_preservation topicState okRenderOracle (by decide) (by decide)
    (by decide) (by decide)).2.1

/-! ## Claim C4: credential-gate short-circuit (corrected) -/

/-- Counterexample to C4 as stated: in a state where the key check has
completed and reported no selected credential (the blocking modal is shown),
invoking the generation handler still attempts the outline request and the
render requests; the handler itself contains no credential check. -/
theorem C4_counterexample :
    keyModalShown gateState = true ∧
    (handleGenerate gateState failingRenderOracle).outlineRequest.isSome = true ∧
    (handleGenerate gateState failingRenderOracle).renderRequests ≠ [] := by
  decide

/-- Claim C4 (amended): the credential gate is enforced only in the view
layer. The key-selection modal overlays the app exactly when the key check
has finished and no key is selected; the generation handler is independent
of the credential flag, and it attempts the outline request exactly when no
generation is in progress and the input is nonempty, regardless of the
gate. -/
theorem C4_gate_view_only (st : GenState) (o : GenOracles) (b : Bool) :
    handleGenerate { st with hasApiKey := b } o = handleGenerate st o ∧
    ((handleGenerate st o).outlineRequest.isSome = true ↔
      st.isLoading = false ∧ ¬(jsTrim st.inputText = "" ∧ st.uploadedFile = none)) ∧
    (keyModalShown st = true ↔ st.checkingKey = false ∧ st.hasApiKey = false) := by
  refine ⟨?_, ?_, ?_⟩
  · obtain ⟨it, uf, cl, vs, lg, sc, il, hk, ck⟩ := st
    rfl
  · by_cases hl : st.isLoading
    · unfold handleGenerate
      rw [if_pos hl]
      simp [hl]
    · have hl2 : st.isLoading = false := Bool.eq_false_iff.mpr hl
      by_cases hin : jsTrim st.inputText = "" ∧ st.uploadedFile = none
      · unfold handleGenerate
        rw [if_neg hl, if_pos hin]
        simp [hl2, hin]
      · unfold handleGenerate
        rw [if_neg hl, if_neg hin]
        split
        · simp [hl2, hin]
        · split
          · simp [hl2, hin]
          · simp [hl2, hin]
  · unfold keyModalShown
    cases hc : st.checkingKey <;> cases hk : st.hasApiKey <;> simp

/-- Witness for C4 (amended): the handler result at the gate-false state
equals its result with the flag forced true. -/
theorem C4_gate_view_only_witness :
    handleGenerate { gateState with hasApiKey := true } failingRenderOracle =
      handleGenerate gateState failingRenderOracle :=
  (C4_gate_view_only gateState failingRenderOracle true).1

/-! ## Claim C7: mode-selection predicate -/

/-- Claim C7: the outline synthesizer disables the search tool exactly when
an attached document is present or the input exceeds 250 characters (article
analysis mode); in that mode the nonempty input text is embedded verbatim,
truncated to at most 20000 characters, in the content section of the
prompt; otherwise the search tool is enabled and the prompt instructs
researching the literal topic string. -/
theorem C7_mode_selection (input : String) (attachedFile : Option UploadedFile)
    (level style language : String) (slideCount : Nat)
    (resp : TextGenResponse) (jsonParse : String → Option (List SlideOutline)) :
    ((generatePresentationOutline input attachedFile level style language slideCount resp
        jsonParse).request.searchTool = false ↔
      (attachedFile ≠ none ∨ input.length > 250)) ∧
    ((attachedFile ≠ none ∨ input.length > 250) → input ≠ "" →
      ∃ pre : String,
        (generatePresentationOutline input attachedFile level style language slideCount resp
          jsonParse).request.promptText =
        pre ++ ("\n\nCONTENT TO ANALYZE:\n\"" ++ jsSubstring input 20000 ++ "\"")) ∧
    ((jsSubstring input 20000).length ≤ 20000) ∧
    (input.length ≤ 20000 → jsSubstring input 20000 = input) ∧
    (¬(attachedFile ≠ none ∨ input.length > 250) →
      ∃ pre post : String,
        (generatePresentationOutline input attachedFile level style language slideCount resp
          jsonParse).request.promptText =
        pre ++ ("Task: Research the topic: \"" ++ input ++ "\"") ++ post) := by
  have hart : isArticleInput input attachedFile = true ↔
      (attachedFile ≠ none ∨ input.length > 250) := by
    unfold isArticleInput
    rw [Bool.or_eq_true, decide_eq_true_eq]
    rw [Option.isSome_iff_ne_none]
    exact or_comm
  refine ⟨?_, ?_, ?_, ?_, ?_⟩
  · show (!(isArticleInput input attachedFile)) = false ↔ _
    rw [← hart]
    cases isArticleInput input attachedFile <;> simp
  · intro h hne
    have ha : isArticleInput input attachedFile = true := hart.mpr h
    refine ⟨"\n      " ++ baseInstruction slideCount level language (getStyleInstruction style) ++
      "\n      \n      Analyze the provided content (text and/or attached document) to create the deck.\n    ", ?_⟩
    show buildPromptText input attachedFile slideCount level language
      (getStyleInstruction style) = _
    unfold buildPromptText
    rw [if_pos ha]
    unfold articleContentSection
    rw [if_pos hne]
  · show (input.data.take 20000).length ≤ 20000
    rw [List.length_take]
    exact Nat.min_le_left _ _
  · intro h
    obtain ⟨d⟩ := input
    show (⟨List.take 20000 d⟩ : String) = ⟨d⟩
    rw [List.take_of_length_le h]
  · intro h
    have ha : isArticleInput input attachedFile = false := by
      cases hb : isArticleInput input attachedFile
      · rfl
      · exact absurd (hart.mp hb) h
    refine ⟨"\n      " ++ baseInstruction slideCount level language (getStyleInstruction style) ++
      "\n      \n      ",
      " and create the deck.\n      **Use Google Search to find accurate facts.**\n    ", ?_⟩
    show buildPromptText input attachedFile slideCount level language
      (getStyleInstruction style) = _
    unfold buildPromptText
    rw [if_neg (by rw [ha]; exact Bool.false_ne_true)]

/-- Witness for C7 at a 251-character input (article mode, search disabled)
and a 2-character input (topic mode, search enabled). -/
theorem C7_mode_selection_witness :
    (generatePresentationOutline longInput none "专业" "现代简约" "English" 5 plainTextResp
        noParse).request.searchTool = false ∧
    (generatePresentationOutline "AI" none "专业" "现代简约" "English" 5 plainTextResp
        noParse).request.searchTool = true := by
  constructor
  · exact ((C7_mode_selection longInput none "专业" "现代简约" "English" 5 plainTextResp
      noParse).1).mpr (Or.inr (by decide))
  · have h := (C7_mode_selection "AI" none "专业" "现代简约" "English" 5 plainTextResp noParse).1
    cases hb : (generatePresentationOutline "AI" none "专业" "现代简约" "English" 5 plainTextResp
        noParse).request.searchTool
    · exact absurd (h.mp hb) (by decide)
    · rfl
